import Mathlib

/-!
Shallow embedding of `src/nia_voice_mac/main.py` (class `NiaMacClient`):
the turn pipeline (`_run_voice`, `_run_text`, `_run_pipeline` with its
`_on_chunk` callback and player teardown), the wake-word handler
(`_on_wake_detected`), one iteration of the interactive command loop in
`start`, and a small interleaving model of the busy-flag handshake between
trigger threads and spawned turn threads.

Effects (prints, subprocess operations, remote calls, flag writes) are
recorded as an event trace; external collaborators (mic, hub, player
binary discovery, `uuid.uuid4().hex`) are oracles supplied through
environment records.
-/

namespace NiaVoiceMac

/-- Observable effects of the client, in program order. Each constructor
corresponds to one statement of `main.py` that prints, mutates
`self._processing`, or calls out to a collaborator. -/
inductive Event
  | setProcessing (b : Bool)      -- `self._processing = b`
  | statusListening               -- `_status("🎙", ...)` in `_run_voice`
  | micRecord                     -- `self._mic.record(auto_stop=True)` call
  | statusNothingCaptured         -- `_status("💤", _DIM, "Nothing captured")`
  | statusThinking                -- `_status("⏳", ...)` in `_run_pipeline`
  | remoteVoiceCall               -- `self._hub.voice_pipeline(...)` call
  | statusSpeaking                -- `_status("🔊", _C, "Speaking…")`
  | spawnPlayer                   -- `subprocess.Popen(...)` in `_start_player`
  | warnNoPlayer                  -- `print("⚠  No MP3 player found...")`
  | writeChunk                    -- successful `player_proc.stdin.write(chunk)`
  | stdinClose                    -- `player_proc.stdin.close()` call
  | waitPlayer (timeout : Nat)    -- `player_proc.wait(timeout=30)` call
  | killPlayer                    -- `player_proc.kill()`
  | printResult                   -- printing transcript + reply
  | statusNothingTranscribed      -- `_status("💤", _DIM, "Nothing transcribed...")`
  | statusError                   -- `_status("❌", _RED, f"Error: {e}")`
  | promptShown                   -- `self._prompt()`
  | printEcho                     -- `print(f"→ {text}")` in `_run_text`
  | chatCall                      -- `self._hub.chat(text)` call
  | printReply                    -- `print(f"Nia: {reply}")` in `_run_text`
  | resumeDetector                -- `self._wake_engine.resume()`
  | resetConversation             -- `self._hub.reset_conversation()`
  | printResetConfirmation       -- `print("Conversation reset....")`
  | stillProcessingNotice         -- `print("Still processing — please wait…")`
deriving DecidableEq, Repr

/-- Python exceptions relevant to the modelled code paths. -/
inductive PyError
  | brokenPipeError
  | timeoutExpired
  | exception
deriving DecidableEq, Repr

/-- Oracle for one delivered audio chunk: the state of the player's stdin
at write time and whether the write raises `BrokenPipeError`. -/
structure ChunkEnv where
  stdinClosed : Bool
  brokenPipe : Bool
deriving DecidableEq, Repr

/-- How `self._hub.voice_pipeline(...)` ends, after streaming its chunks:
it either returns `(transcript, reply)` or raises. -/
inductive CallEnd
  | returns (transcript : List Char) (reply : List Char)
  | raises
deriving DecidableEq, Repr

/-- Environment of one `_run_pipeline` call: whether a player binary was
discovered at startup (`self._player_cmd` non-empty), the chunks the hub
delivers to `_on_chunk` in order, how the hub call ends, whether
`stdin.close()` raises, and whether `wait(timeout=30)` raises
`TimeoutExpired`. -/
structure PipelineEnv where
  hasPlayerCmd : Bool
  chunks : List ChunkEnv
  callEnd : CallEnd
  closeRaises : Bool
  waitTimesOut : Bool
deriving DecidableEq, Repr

/-- Embeds `_start_player`: returns `None` when no player command was discovered,
otherwise calls `subprocess.Popen` and returns the live handle. -/
def start_player (hasPlayerCmd : Bool) : Option Unit × List Event :=
  if hasPlayerCmd then (some (), [Event.spawnPlayer]) else (none, [])

/-- The raw `player_proc.stdin.write(chunk)` call: raises
`BrokenPipeError` or succeeds. -/
def stdinWriteCall (c : ChunkEnv) : Except PyError (List Event) :=
  if c.brokenPipe then Except.error PyError.brokenPipeError
  else Except.ok [Event.writeChunk]

/-- The write section of `_on_chunk`:
`if player_proc and player_proc.stdin and not player_proc.stdin.closed:`
guards the write, and `except BrokenPipeError: pass` swallows a broken
pipe. Exceptions other than `BrokenPipeError` would propagate. -/
def onChunkWrite (player : Option Unit) (c : ChunkEnv) : Except PyError (List Event) :=
  if player.isSome && !c.stdinClosed then
    match stdinWriteCall c with
    | Except.ok evs => Except.ok evs
    | Except.error PyError.brokenPipeError => Except.ok []
    | Except.error e => Except.error e
  else
    Except.ok []

/-- One invocation of the `_on_chunk` callback. State is
`(first_chunk, player_proc)`. On the first chunk the status line is
printed, `_start_player` is called, and a warning is printed when it
returned `None`. The write can only raise `BrokenPipeError`, which the
callback itself catches, so the callback never raises (the `error` arm of
the match is unreachable). -/
def onChunk (hp : Bool) (st : Bool × Option Unit) (c : ChunkEnv) :
    (Bool × Option Unit) × List Event :=
  let firstChunk := st.1
  let player0 := st.2
  let opened :=
    if firstChunk then
      let sp := start_player hp
      (sp.1, Event.statusSpeaking :: sp.2 ++
        (if sp.1.isNone then [Event.warnNoPlayer] else []))
    else (player0, [])
  let writeEvs :=
    match onChunkWrite opened.1 c with
    | Except.ok evs => evs
    | Except.error _ => []
  ((false, opened.1), opened.2 ++ writeEvs)

/-- Folds `_on_chunk` over the chunks the hub delivers, in order. -/
def foldChunks (hp : Bool) (st : Bool × Option Unit) :
    List ChunkEnv → (Bool × Option Unit) × List Event
  | [] => (st, [])
  | c :: rest =>
    let r := onChunk hp st c
    let r2 := foldChunks hp r.1 rest
    (r2.1, r.2 ++ r2.2)

/-- The timeout passed to `player_proc.wait(timeout=30)`. -/
def playerWaitTimeout : Nat := 30

/-- Embeds `try: player_proc.stdin.close() except Exception: pass` — the call is
made; an exception it raises is produced but dropped by the bare
`except`. -/
def closeStdinAttempt (closeRaises : Bool) : List Event × Option PyError :=
  ([Event.stdinClose], if closeRaises then some PyError.exception else none)

/-- The `finally` teardown of `_run_pipeline` once a player handle exists:
close stdin (errors swallowed), wait up to `playerWaitTimeout`, and kill
the process on `TimeoutExpired`. -/
def closePlayer (closeRaises waitTimesOut : Bool) : List Event :=
  (closeStdinAttempt closeRaises).1 ++
    Event.waitPlayer playerWaitTimeout ::
      (if waitTimesOut then [Event.killPlayer] else [])

/-- Embeds `_run_pipeline(wav_bytes)`: prints the thinking status, invokes the
hub's voice pipeline (which streams chunks to `_on_chunk`), always runs
the `finally` teardown when a player was spawned, and — only when the hub
call returned — prints transcript + reply (or the nothing-transcribed
status when the transcript is empty/falsy). The returned `Bool` records
whether the hub call's exception propagates out of `_run_pipeline`. -/
def run_pipeline (env : PipelineEnv) : Bool × List Event :=
  let head := [Event.statusThinking, Event.remoteVoiceCall]
  let folded := foldChunks env.hasPlayerCmd (true, none) env.chunks
  let player := folded.1.2
  let chunkEvs := folded.2
  let closeEvs :=
    if player.isSome then closePlayer env.closeRaises env.waitTimesOut else []
  match env.callEnd with
  | CallEnd.returns transcript _ =>
    let printEvs :=
      if transcript ≠ [] then [Event.printResult]
      else [Event.statusNothingTranscribed]
    (false, head ++ chunkEvs ++ closeEvs ++ printEvs)
  | CallEnd.raises =>
    (true, head ++ chunkEvs ++ closeEvs)

/-- Outcome of `self._mic.record(auto_stop=True)`: raises, or returns a
WAV byte string of the given length. -/
inductive MicOutcome
  | raises
  | captured (len : Nat)
deriving DecidableEq, Repr

/-- Environment of one `_run_voice` call. -/
structure VoiceEnv where
  mic : MicOutcome
  pipe : PipelineEnv
deriving DecidableEq, Repr

/-- The `try` body of `_run_voice`: listen status, mic capture (which may
raise, caught by `except Exception`), the `< 2500` short-capture early
return, otherwise `_run_pipeline`; a propagated pipeline exception is also
caught by `except Exception` and printed. -/
def voiceBody (env : VoiceEnv) : List Event :=
  match env.mic with
  | MicOutcome.raises =>
    [Event.statusListening, Event.micRecord, Event.statusError]
  | MicOutcome.captured n =>
    if n < 2500 then
      [Event.statusListening, Event.micRecord, Event.statusNothingCaptured]
    else
      let res := run_pipeline env.pipe
      Event.statusListening :: Event.micRecord :: res.2 ++
        (if res.1 then [Event.statusError] else [])

/-- Embeds `_run_voice`: sets `self._processing = True` unconditionally (the
prior value `processing0` is never read), runs the body under
`try/except Exception`, and the `finally` clause sets
`self._processing = False` and redraws the prompt. -/
def run_voice (env : VoiceEnv) (processing0 : Bool) : List Event :=
  Event.setProcessing true :: voiceBody env ++
    [Event.setProcessing false, Event.promptShown]

/-- Outcome of `self._hub.chat(text)`. -/
inductive ChatOutcome
  | raises
  | replies (reply : List Char)
deriving DecidableEq, Repr

/-- The `try` body of `_run_text`: echo the text, thinking status, the
chat call, then either print the reply or (via `except Exception`) the
error status. -/
def textBody (c : ChatOutcome) : List Event :=
  [Event.printEcho, Event.statusThinking, Event.chatCall] ++
    match c with
    | ChatOutcome.replies _ => [Event.printReply]
    | ChatOutcome.raises => [Event.statusError]

/-- Embeds `_run_text(text)`: same guard skeleton as `_run_voice` — set the flag,
run the body, and the `finally` clause releases the flag and prompts. -/
def run_text (c : ChatOutcome) (processing0 : Bool) : List Event :=
  Event.setProcessing true :: textBody c ++
    [Event.setProcessing false, Event.promptShown]

/-- The value of `self._processing` after replaying a trace from `init`:
the last `setProcessing` event wins. -/
def finalProcessing (init : Bool) (tr : List Event) : Bool :=
  tr.foldl (fun b e => match e with | Event.setProcessing v => v | _ => b) init

/-- Embeds `_on_wake_detected`: if a turn is already in flight, resume the
detector (when present) and return without launching a turn; otherwise
run `_run_voice` on a background thread and resume the detector (when
present) after it completes. The spawned thread is sequentialised here. -/
def on_wake_detected (processing : Bool) (hasEngine : Bool) (env : VoiceEnv) :
    List Event :=
  if processing then
    if hasEngine then [Event.resumeDetector] else []
  else
    run_voice env processing ++
      (if hasEngine then [Event.resumeDetector] else [])

/-! ### Command loop (one iteration of the `while self._running` loop) -/

/-- Whitespace characters stripped by Python's `str.strip()` (ASCII
range). -/
def isPySpace (c : Char) : Bool :=
  c = ' ' || c = '\t' || c = '\n' || c = '\r' ||
    c = Char.ofNat 11 || c = Char.ofNat 12

/-- Python `line.strip()` on a list of characters. -/
def pyStrip (s : List Char) : List Char :=
  ((s.dropWhile isPySpace).reverse.dropWhile isPySpace).reverse

/-- Python `str.lower()` on one character (ASCII range, as used by the command
tokens). -/
def pyLowerChar (c : Char) : Char :=
  if 'A' ≤ c && c ≤ 'Z' then Char.ofNat (c.toNat + 32) else c

/-- Python `cmd.lower()` on a list of characters. -/
def pyLower (s : List Char) : List Char := s.map pyLowerChar

/-- The test `lower in ("q", "quit", "exit")`. -/
def quitTokens : List (List Char) := ["q".toList, "quit".toList, "exit".toList]

/-- The test `lower in ("r", "reset")`. -/
def resetTokens : List (List Char) := ["r".toList, "reset".toList]

/-- Client state read and written by one loop iteration. -/
structure LoopState where
  processing : Bool
  sessionId : List Char
  textMode : Bool
deriving DecidableEq, Repr

/-- How one loop iteration classifies/dispatches its input line. -/
inductive LoopAction
  | quit                                -- `break`
  | reset                               -- the reset branch ran
  | rejectBusy                          -- "Still processing" notice
  | dispatchTextThread (text : List Char)  -- `Thread(target=self._run_text, ...)`
  | dispatchVoiceThread                 -- `Thread(target=self._run_voice)`
  | promptOnly                          -- text mode, empty line
deriving DecidableEq, Repr

/-- One iteration of the interactive loop in `start` on the line read from
`input()`. `freshUuidHex` is the oracle value of `uuid.uuid4().hex` for
the reset branch. Branch order follows the source: quit tokens, reset
tokens, the busy check, the `t <text>` inline dispatch (falling through
when the payload strips to empty), text-mode dispatch, and otherwise the
voice dispatch. -/
def loopIter (st : LoopState) (line : List Char) (freshUuidHex : List Char) :
    LoopAction × LoopState × List Event :=
  let cmd := pyStrip line
  let lower := pyLower cmd
  if lower ∈ quitTokens then
    (LoopAction.quit, st, [])
  else if lower ∈ resetTokens then
    (LoopAction.reset, { st with sessionId := freshUuidHex.take 12 },
      [Event.resetConversation, Event.printResetConfirmation, Event.promptShown])
  else if st.processing then
    (LoopAction.rejectBusy, st, [Event.stillProcessingNotice, Event.promptShown])
  else if lower.take 2 = "t ".toList ∧ cmd.length > 2 ∧ pyStrip (cmd.drop 2) ≠ [] then
    (LoopAction.dispatchTextThread (pyStrip (cmd.drop 2)), st, [])
  else if st.textMode then
    if cmd ≠ [] then (LoopAction.dispatchTextThread cmd, st, [])
    else (LoopAction.promptOnly, st, [Event.promptShown])
  else
    (LoopAction.dispatchVoiceThread, st, [])

/-- Lowercase hexadecimal digit, the alphabet of `uuid.uuid4().hex`. -/
def isLowerHex (c : Char) : Bool :=
  ('0' ≤ c && c ≤ '9') || ('a' ≤ c && c ≤ 'f')

/-! ### Interleaving model of the busy-flag handshake

The busy check runs in the trigger's thread (the command loop at
`if self._processing:` / the wake callback at `if self._processing:`),
while `self._processing = True` runs later, inside the *spawned* turn
thread (first statement of `_run_voice` / `_run_text`). This tiny
transition system makes that split explicit so interleavings can be
examined. -/

/-- Instructions of the threads involved in starting a turn. -/
inductive TInstr
  | checkAndSpawn  -- trigger: read `self._processing`; if clear, `Thread(...).start()`
  | setBusy        -- spawned turn thread: `self._processing = True`
  | turnWork       -- the turn body (capture / remote call / playback)
  | clearBusy      -- `finally: self._processing = False`
deriving DecidableEq, Repr

/-- A thread is its list of remaining instructions. -/
abbrev TThread := List TInstr

/-- The program a spawned turn thread runs. -/
def bodyProg : TThread := [TInstr.setBusy, TInstr.turnWork, TInstr.clearBusy]

/-- Process-wide state: the shared `self._processing` flag and the live
threads. -/
structure Sys where
  busy : Bool
  threads : List TThread
deriving DecidableEq, Repr

/-- Execute one instruction of one thread against the shared flag. Returns
the new flag, the thread's remaining program, and a newly spawned thread
if any. A trigger that observes the flag set rejects (prints the notice /
resumes the detector) and spawns nothing. -/
def stepThread (busy : Bool) (t : TThread) : Bool × TThread × Option TThread :=
  match t with
  | [] => (busy, [], none)
  | TInstr.checkAndSpawn :: rest =>
    if busy then (busy, rest, none)
    else (busy, rest, some bodyProg)
  | TInstr.setBusy :: rest => (true, rest, none)
  | TInstr.turnWork :: rest => (busy, rest, none)
  | TInstr.clearBusy :: rest => (false, rest, none)

/-- Run one step of the thread at index `i` (no-op on a bad index). -/
def step (s : Sys) (i : Nat) : Sys :=
  match s.threads.get? i with
  | none => s
  | some t =>
    let r := stepThread s.busy t
    { busy := r.1,
      threads := (s.threads.set i r.2.1) ++
        (match r.2.2 with | some th => [th] | none => []) }

/-- Run a schedule: a list of thread indices, executed in order. -/
def runSched (s : Sys) : List Nat → Sys
  | [] => s
  | i :: rest => runSched (step s i) rest

/-- A thread is currently inside a turn body when it has performed
`setBusy` and is about to perform the turn's work. -/
def inBody (t : TThread) : Bool := t.head? == some TInstr.turnWork

/-- Number of turn bodies executing at this instant. -/
def bodiesRunning (s : Sys) : Nat := (s.threads.filter inBody).length

/-- Two concurrent trigger threads (e.g. the command loop's Enter dispatch
and the wake callback), both reading a clear flag. -/
def raceInit : Sys :=
  { busy := false, threads := [[TInstr.checkAndSpawn], [TInstr.checkAndSpawn]] }

/-- Both triggers check before either spawned body sets the flag. -/
def raceSchedule : List Nat := [0, 1, 2, 3]

/-! ### Helper lemmas -/

theorem onChunk_state (hp : Bool) (st : Bool × Option Unit) (c : ChunkEnv) :
    (onChunk hp st c).1 =
      (false, if st.1 then (if hp then some () else none) else st.2) := by
  rcases st with ⟨fc, p⟩
  cases fc <;> cases hp <;> simp [onChunk, start_player]

theorem onChunk_steady (hp : Bool) (p : Option Unit) (c : ChunkEnv) :
    onChunk hp (false, p) c =
      ((false, p),
        if p.isSome && !c.stdinClosed && !c.brokenPipe then [Event.writeChunk]
        else []) := by
  cases p <;> cases hc : c.stdinClosed <;> cases hb : c.brokenPipe <;>
    simp [onChunk, onChunkWrite, stdinWriteCall, hc, hb]

theorem onChunk_first (hp : Bool) (p0 : Option Unit) (c : ChunkEnv) :
    onChunk hp (true, p0) c =
      ((false, if hp then some () else none),
        (if hp then [Event.statusSpeaking, Event.spawnPlayer]
         else [Event.statusSpeaking, Event.warnNoPlayer]) ++
          (if hp && !c.stdinClosed && !c.brokenPipe then [Event.writeChunk]
           else [])) := by
  cases hp <;> cases hc : c.stdinClosed <;> cases hb : c.brokenPipe <;>
    simp [onChunk, start_player, onChunkWrite, stdinWriteCall, hc, hb]

theorem mem_onChunk (hp : Bool) (st : Bool × Option Unit) (c : ChunkEnv) (e : Event)
    (h : e ∈ (onChunk hp st c).2) :
    e = Event.statusSpeaking ∨ e = Event.spawnPlayer ∨ e = Event.warnNoPlayer ∨
      e = Event.writeChunk := by
  rcases st with ⟨fc, p⟩
  cases fc <;> cases hp <;> cases p <;>
    cases hc : c.stdinClosed <;> cases hb : c.brokenPipe <;>
    simp [onChunk, onChunkWrite, stdinWriteCall, start_player, hc, hb] at h <;>
    tauto

theorem mem_foldChunks (hp : Bool) (cs : List ChunkEnv) (st : Bool × Option Unit)
    (e : Event) (h : e ∈ (foldChunks hp st cs).2) :
    e = Event.statusSpeaking ∨ e = Event.spawnPlayer ∨ e = Event.warnNoPlayer ∨
      e = Event.writeChunk := by
  induction cs generalizing st with
  | nil => simp [foldChunks] at h
  | cons c rest ih =>
    simp only [foldChunks, List.mem_append] at h
    rcases h with h | h
    · exact mem_onChunk hp st c e h
    · exact ih _ h

theorem foldChunks_steady (hp : Bool) (p : Option Unit) (cs : List ChunkEnv) :
    (foldChunks hp (false, p) cs).1 = (false, p) := by
  induction cs with
  | nil => rfl
  | cons c rest ih =>
    simp only [foldChunks, onChunk_steady]
    exact ih

theorem foldChunks_first_state (hp : Bool) (c : ChunkEnv) (rest : List ChunkEnv) :
    (foldChunks hp (true, none) (c :: rest)).1 =
      (false, if hp then some () else none) := by
  simp only [foldChunks, onChunk_first]
  exact foldChunks_steady hp _ rest

theorem mem_run_pipeline (env : PipelineEnv) (e : Event)
    (h : e ∈ (run_pipeline env).2) :
    e = Event.statusThinking ∨ e = Event.remoteVoiceCall ∨ e = Event.statusSpeaking ∨
    e = Event.spawnPlayer ∨ e = Event.warnNoPlayer ∨ e = Event.writeChunk ∨
    e = Event.stdinClose ∨ e = Event.waitPlayer playerWaitTimeout ∨
    e = Event.killPlayer ∨ e = Event.printResult ∨
    e = Event.statusNothingTranscribed := by
  rcases env with ⟨hp, cs, ce, cr, wt⟩
  have hcloseIf : ∀ x ∈ (if (foldChunks hp (true, none) cs).1.2.isSome then
        closePlayer cr wt else []),
      x = Event.stdinClose ∨ x = Event.waitPlayer playerWaitTimeout ∨
        x = Event.killPlayer := by
    intro x hx
    split at hx
    · cases wt <;> simp [closePlayer, closeStdinAttempt] at hx <;> tauto
    · simp at hx
  cases ce with
  | returns transcript reply =>
    simp only [run_pipeline] at h
    rcases List.mem_append.mp h with h12 | hPrint
    · rcases List.mem_append.mp h12 with h1 | hClose
      · rcases List.mem_append.mp h1 with hHead | hChunk
        · simp at hHead; tauto
        · have := mem_foldChunks hp cs (true, none) e hChunk; tauto
      · have := hcloseIf e hClose; tauto
    · split at hPrint <;> simp at hPrint <;> tauto
  | raises =>
    simp only [run_pipeline] at h
    rcases List.mem_append.mp h with h1 | hClose
    · rcases List.mem_append.mp h1 with hHead | hChunk
      · simp at hHead; tauto
      · have := mem_foldChunks hp cs (true, none) e hChunk; tauto
    · have := hcloseIf e hClose; tauto

theorem remote_call_mem_run_pipeline (env : PipelineEnv) :
    Event.remoteVoiceCall ∈ (run_pipeline env).2 := by
  rcases env with ⟨hp, cs, ce, cr, wt⟩
  cases ce <;> simp [run_pipeline]

theorem mem_voiceBody (env : VoiceEnv) (e : Event) (h : e ∈ voiceBody env) :
    e = Event.statusListening ∨ e = Event.micRecord ∨
    e = Event.statusNothingCaptured ∨ e = Event.statusError ∨
    e ∈ (run_pipeline env.pipe).2 := by
  cases hm : env.mic with
  | raises => simp [voiceBody, hm] at h; tauto
  | captured n =>
    by_cases hn : n < 2500
    · simp [voiceBody, hm, hn] at h; tauto
    · simp only [voiceBody, hm, if_neg hn, List.cons_append, List.mem_cons,
        List.mem_append] at h
      rcases h with h | h | h | h
      · tauto
      · tauto
      · tauto
      · split at h <;> simp at h <;> tauto

theorem voiceBody_no_setProcessing (env : VoiceEnv) (v : Bool) :
    Event.setProcessing v ∉ voiceBody env := by
  intro h
  rcases mem_voiceBody env _ h with h | h | h | h | h <;>
    first
      | exact Event.noConfusion h
      | { rcases mem_run_pipeline env.pipe _ h with
            h | h | h | h | h | h | h | h | h | h | h <;> exact Event.noConfusion h }

theorem voiceBody_no_resume (env : VoiceEnv) :
    Event.resumeDetector ∉ voiceBody env := by
  intro h
  rcases mem_voiceBody env _ h with h | h | h | h | h <;>
    first
      | exact Event.noConfusion h
      | { rcases mem_run_pipeline env.pipe _ h with
            h | h | h | h | h | h | h | h | h | h | h <;> exact Event.noConfusion h }

theorem textBody_no_setProcessing (c : ChatOutcome) (v : Bool) :
    Event.setProcessing v ∉ textBody c := by
  cases c <;> simp [textBody]

theorem finalProcessing_append (b : Bool) (l1 l2 : List Event) :
    finalProcessing b (l1 ++ l2) = finalProcessing (finalProcessing b l1) l2 := by
  simp [finalProcessing, List.foldl_append]

theorem finalProcessing_of_no_set (b : Bool) (l : List Event)
    (h : ∀ v : Bool, Event.setProcessing v ∉ l) : finalProcessing b l = b := by
  induction l generalizing b with
  | nil => rfl
  | cons e rest ih =>
    have hrest : ∀ v : Bool, Event.setProcessing v ∉ rest := by
      intro v hv
      exact h v (List.mem_cons_of_mem _ hv)
    have he : ∀ v : Bool, e ≠ Event.setProcessing v := by
      intro v hv
      exact h v (hv ▸ List.mem_cons_self _ _)
    cases e with
    | setProcessing v => exact absurd rfl (he v)
    | _ => exact ih b hrest

/-! more pipeline decomposition lemmas -/

/-- The result-printing tail of `_run_pipeline`, reached only when the hub
call returned. -/
def printEvsOf : CallEnd → List Event
  | CallEnd.returns transcript _ =>
    if transcript ≠ [] then [Event.printResult]
    else [Event.statusNothingTranscribed]
  | CallEnd.raises => []

theorem run_pipeline_trace (env : PipelineEnv) :
    (run_pipeline env).2 =
      [Event.statusThinking, Event.remoteVoiceCall] ++
        (foldChunks env.hasPlayerCmd (true, none) env.chunks).2 ++
        (if (foldChunks env.hasPlayerCmd (true, none) env.chunks).1.2.isSome then
          closePlayer env.closeRaises env.waitTimesOut else []) ++
        printEvsOf env.callEnd := by
  rcases env with ⟨hp, cs, ce, cr, wt⟩
  cases ce <;> simp [run_pipeline, printEvsOf]

theorem count_printEvsOf (ce : CallEnd) (e : Event)
    (h1 : e ≠ Event.printResult) (h2 : e ≠ Event.statusNothingTranscribed) :
    (printEvsOf ce).count e = 0 := by
  cases ce with
  | returns t r =>
    by_cases ht : t ≠ [] <;>
      simp [printEvsOf, ht, List.count_cons, beq_iff_eq, h1, h2]
  | raises => rfl

theorem closePlayer_counts (cr wt : Bool) :
    (closePlayer cr wt).count Event.stdinClose = 1 ∧
    (closePlayer cr wt).count (Event.waitPlayer playerWaitTimeout) = 1 ∧
    (closePlayer cr wt).count Event.killPlayer = (if wt then 1 else 0) := by
  cases cr <;> cases wt <;> decide

theorem chunkEvs_count_zero (hp : Bool) (cs : List ChunkEnv)
    (st : Bool × Option Unit) (e : Event) (he1 : e ≠ Event.statusSpeaking)
    (he2 : e ≠ Event.spawnPlayer) (he3 : e ≠ Event.warnNoPlayer)
    (he4 : e ≠ Event.writeChunk) :
    ((foldChunks hp st cs).2).count e = 0 := by
  apply List.count_eq_zero.mpr
  intro hmem
  rcases mem_foldChunks hp cs st e hmem with h | h | h | h <;> tauto

theorem foldChunks_steady_all_write (hp : Bool) (p : Option Unit)
    (cs : List ChunkEnv) :
    ∀ e ∈ (foldChunks hp (false, p) cs).2, e = Event.writeChunk := by
  induction cs with
  | nil => simp [foldChunks]
  | cons c rest ih =>
    intro e he
    simp only [foldChunks, onChunk_steady, List.mem_append] at he
    rcases he with he | he
    · split at he <;> simp at he; exact he
    · exact ih e he

theorem foldChunks_cons_trace (hp : Bool) (c : ChunkEnv)
    (rest : List ChunkEnv) :
    (foldChunks hp (true, none) (c :: rest)).2 =
      ((if hp then [Event.statusSpeaking, Event.spawnPlayer]
        else [Event.statusSpeaking, Event.warnNoPlayer]) ++
        (if hp && !c.stdinClosed && !c.brokenPipe then [Event.writeChunk]
         else [])) ++
      (foldChunks hp (false, if hp then some () else none) rest).2 := by
  simp only [foldChunks, onChunk_first]

theorem foldChunks_steady_count_zero (hp : Bool) (p : Option Unit)
    (cs : List ChunkEnv) (e : Event) (he : e ≠ Event.writeChunk) :
    ((foldChunks hp (false, p) cs).2).count e = 0 := by
  apply List.count_eq_zero.mpr
  intro hmem
  exact he (foldChunks_steady_all_write hp p cs e hmem)

theorem not_mem_printEvsOf (ce : CallEnd) (e : Event)
    (h1 : e ≠ Event.printResult) (h2 : e ≠ Event.statusNothingTranscribed) :
    e ∉ printEvsOf ce := by
  intro h
  cases ce with
  | returns t r =>
    by_cases ht : t ≠ [] <;> simp [printEvsOf, ht] at h <;> tauto
  | raises => simp [printEvsOf] at h

theorem closePlayer_count_zero (cr wt : Bool) (e : Event)
    (h1 : e ≠ Event.stdinClose)
    (h2 : e ≠ Event.waitPlayer playerWaitTimeout)
    (h3 : e ≠ Event.killPlayer) :
    (closePlayer cr wt).count e = 0 := by
  apply List.count_eq_zero.mpr
  intro h
  cases wt <;> simp [closePlayer, closeStdinAttempt, playerWaitTimeout] at h <;>
    rcases h with h | h | h <;> simp [playerWaitTimeout] at * <;> tauto

theorem chunkEvs_spawn_warn_count (hp : Bool) (c : ChunkEnv)
    (rest : List ChunkEnv) :
    ((foldChunks hp (true, none) (c :: rest)).2).count Event.spawnPlayer =
      (if hp then 1 else 0) ∧
    ((foldChunks hp (true, none) (c :: rest)).2).count Event.warnNoPlayer =
      (if hp then 0 else 1) := by
  cases hp <;> rw [foldChunks_cons_trace] <;>
    simp [List.count_append, List.count_cons, beq_iff_eq,
      foldChunks_steady_count_zero] <;>
    split <;> simp

/-! ### Claim theorems -/

/-- **C1**: for every accepted turn — audio via `_run_voice` or text via
`_run_text` — and regardless of whether capture, the remote call, or
playback raised, the busy flag is set back to `False` exactly once after
the turn body finishes, and the flag's final value is `False`: the process
is never left permanently busy. -/
theorem guard_release_total (venv : VoiceEnv) (b : Bool) (c : ChatOutcome)
    (b2 : Bool) :
    ((run_voice venv b).count (Event.setProcessing false) = 1 ∧
      (∃ body, run_voice venv b =
          Event.setProcessing true :: body ++
            [Event.setProcessing false, Event.promptShown] ∧
        ∀ v : Bool, Event.setProcessing v ∉ body) ∧
      finalProcessing b (run_voice venv b) = false) ∧
    ((run_text c b2).count (Event.setProcessing false) = 1 ∧
      (∃ body, run_text c b2 =
          Event.setProcessing true :: body ++
            [Event.setProcessing false, Event.promptShown] ∧
        ∀ v : Bool, Event.setProcessing v ∉ body) ∧
      finalProcessing b2 (run_text c b2) = false) := by
  have hv0 : (voiceBody venv).count (Event.setProcessing false) = 0 :=
    List.count_eq_zero.mpr (voiceBody_no_setProcessing venv false)
  have ht0 : (textBody c).count (Event.setProcessing false) = 0 :=
    List.count_eq_zero.mpr (textBody_no_setProcessing c false)
  have hvfix : finalProcessing true (voiceBody venv) = true :=
    finalProcessing_of_no_set true _ (voiceBody_no_setProcessing venv)
  have htfix : finalProcessing true (textBody c) = true :=
    finalProcessing_of_no_set true _ (textBody_no_setProcessing c)
  refine ⟨⟨?_, ⟨voiceBody venv, rfl, voiceBody_no_setProcessing venv⟩, ?_⟩,
          ⟨?_, ⟨textBody c, rfl, textBody_no_setProcessing c⟩, ?_⟩⟩
  · simp [run_voice, List.count_cons, List.count_append, hv0]
  · show finalProcessing true
      (voiceBody venv ++ [Event.setProcessing false, Event.promptShown]) = false
    rw [finalProcessing_append, hvfix]
    rfl
  · simp [run_text, List.count_cons, List.count_append, ht0]
  · show finalProcessing true
      (textBody c ++ [Event.setProcessing false, Event.promptShown]) = false
    rw [finalProcessing_append, htfix]
    rfl

/-- **C2**: in an audio turn whose capture succeeded, a WAV byte string
shorter than 2500 bytes aborts the turn with the "nothing captured"
status and never reaches the remote voice-pipeline call; a capture of at
least 2500 bytes always reaches it. -/
theorem short_capture_threshold (env : VoiceEnv) (b : Bool) (n : Nat)
    (h : env.mic = MicOutcome.captured n) :
    (n < 2500 →
      Event.remoteVoiceCall ∉ run_voice env b ∧
      Event.statusNothingCaptured ∈ run_voice env b) ∧
    (2500 ≤ n → Event.remoteVoiceCall ∈ run_voice env b) := by
  constructor
  · intro hn
    constructor
    · intro hmem
      simp [run_voice, voiceBody, h, hn] at hmem
    · simp [run_voice, voiceBody, h, hn]
  · intro hn
    have hn2 : ¬ n < 2500 := by omega
    have := remote_call_mem_run_pipeline env.pipe
    simp only [run_voice, voiceBody, h, if_neg hn2, List.cons_append,
      List.mem_cons, List.mem_append]
    tauto

/-- A pipeline environment used by concrete witnesses: player available,
no chunks, successful call. -/
def pipeEnvA : PipelineEnv :=
  { hasPlayerCmd := true, chunks := [], callEnd := CallEnd.returns [] [],
    closeRaises := false, waitTimesOut := false }

def envShort : VoiceEnv := { mic := MicOutcome.captured 1200, pipe := pipeEnvA }

def envLong : VoiceEnv := { mic := MicOutcome.captured 50000, pipe := pipeEnvA }

theorem short_capture_threshold_witness :
    (Event.remoteVoiceCall ∉ run_voice envShort false ∧
      Event.statusNothingCaptured ∈ run_voice envShort false) ∧
    Event.remoteVoiceCall ∈ run_voice envLong false :=
  ⟨(short_capture_threshold envShort false 1200 rfl).1 (by decide),
   (short_capture_threshold envLong false 50000 rfl).2 (by decide)⟩

/-- Environment for the C9 counterexample: a long successful capture. -/
def envC9 : VoiceEnv :=
  { mic := MicOutcome.captured 50000,
    pipe := { hasPlayerCmd := true, chunks := [],
              callEnd := CallEnd.returns [] [], closeRaises := false,
              waitTimesOut := false } }

/-- **C9 counterexample**: `_run_voice` entered with the busy flag already
`True` is not a no-op — mic capture and the remote voice-pipeline call
still happen, refuting the claimed defense-in-depth tryEnter. -/
theorem run_voice_no_defense_in_depth_ce :
    Event.micRecord ∈ run_voice envC9 true ∧
    Event.remoteVoiceCall ∈ run_voice envC9 true := by decide

/-- **C9 (amended)**: `_run_voice` performs no tryEnter defense-in-depth
check at all: its behaviour is independent of the prior busy-flag value,
its first action is the unconditional `self._processing = True`, and mic
capture is always attempted — also when the flag was already `True`. -/
theorem run_voice_unconditional_entry (env : VoiceEnv) (b1 b2 : Bool) :
    run_voice env b1 = run_voice env b2 ∧
    (run_voice env b1).head? = some (Event.setProcessing true) ∧
    Event.micRecord ∈ run_voice env b1 := by
  refine ⟨rfl, rfl, ?_⟩
  rcases env with ⟨mic, pipe⟩
  cases mic with
  | raises => simp [run_voice, voiceBody]
  | captured n =>
    by_cases hn : n < 2500 <;> simp [run_voice, voiceBody, hn]

/-- **C3**: in every turn that spawned a player subprocess (a player
binary exists and at least one chunk arrived), the teardown runs exactly
once on every exit path of the remote call — whether it returned or
raised after any number of chunks: stdin is closed once, `wait` is called
once with timeout 30, and the process is killed exactly when the wait
timed out. -/
theorem sink_close_exactly_once (env : PipelineEnv)
    (hpc : env.hasPlayerCmd = true) (hc : env.chunks ≠ []) :
    ((run_pipeline env).2).count Event.stdinClose = 1 ∧
    ((run_pipeline env).2).count (Event.waitPlayer 30) = 1 ∧
    (env.waitTimesOut = true →
      ((run_pipeline env).2).count Event.killPlayer = 1) ∧
    (env.waitTimesOut = false → Event.killPlayer ∉ (run_pipeline env).2) := by
  obtain ⟨c, rest, hcs⟩ : ∃ c rest, env.chunks = c :: rest := by
    cases hcs : env.chunks with
    | nil => exact absurd hcs hc
    | cons c rest => exact ⟨c, rest, rfl⟩
  have hisSome :
      ((foldChunks env.hasPlayerCmd (true, none) env.chunks).1.2).isSome = true := by
    rw [hcs, hpc, foldChunks_first_state]
    rfl
  have htr := run_pipeline_trace env
  rw [if_pos hisSome] at htr
  have hcnt := closePlayer_counts env.closeRaises env.waitTimesOut
  have h30 : Event.waitPlayer playerWaitTimeout = Event.waitPlayer 30 := rfl
  rw [h30] at hcnt
  have hchunk0 : ∀ e, e ≠ Event.statusSpeaking → e ≠ Event.spawnPlayer →
      e ≠ Event.warnNoPlayer → e ≠ Event.writeChunk →
      ((foldChunks env.hasPlayerCmd (true, none) env.chunks).2).count e = 0 :=
    fun e h1 h2 h3 h4 =>
      chunkEvs_count_zero env.hasPlayerCmd env.chunks (true, none) e h1 h2 h3 h4
  have hprint0 : ∀ e, e ≠ Event.printResult → e ≠ Event.statusNothingTranscribed →
      (printEvsOf env.callEnd).count e = 0 :=
    fun e h1 h2 => count_printEvsOf env.callEnd e h1 h2
  refine ⟨?_, ?_, ?_, ?_⟩
  · rw [htr]
    simp [List.count_append, List.count_cons,
      hchunk0 Event.stdinClose (by decide) (by decide) (by decide) (by decide),
      hprint0 Event.stdinClose (by decide) (by decide), hcnt.1]
  · rw [htr]
    simp [List.count_append, List.count_cons, beq_iff_eq,
      hchunk0 (Event.waitPlayer 30) (by decide) (by decide) (by decide) (by decide),
      hprint0 (Event.waitPlayer 30) (by decide) (by decide), hcnt.2.1]
  · intro hwt
    rw [hwt] at htr hcnt
    have hk : (closePlayer env.closeRaises true).count Event.killPlayer = 1 := by
      simpa using hcnt.2.2
    rw [htr]
    simp [List.count_append, List.count_cons,
      hchunk0 Event.killPlayer (by decide) (by decide) (by decide) (by decide),
      hprint0 Event.killPlayer (by decide) (by decide), hk]
  · intro hwt
    rw [hwt] at htr hcnt
    have hk : (closePlayer env.closeRaises false).count Event.killPlayer = 0 := by
      simpa using hcnt.2.2
    apply List.count_eq_zero.mp
    rw [htr]
    simp [List.count_append, List.count_cons,
      hchunk0 Event.killPlayer (by decide) (by decide) (by decide) (by decide),
      hprint0 Event.killPlayer (by decide) (by decide), hk]

/-- A pipeline environment where the hub call raises after one delivered
chunk and the graceful wait times out; used to witness the teardown. -/
def pipeEnvRaise : PipelineEnv :=
  { hasPlayerCmd := true, chunks := [⟨false, false⟩],
    callEnd := CallEnd.raises, closeRaises := false, waitTimesOut := true }

theorem sink_close_exactly_once_witness :
    ((run_pipeline pipeEnvRaise).2).count Event.stdinClose = 1 ∧
    ((run_pipeline pipeEnvRaise).2).count (Event.waitPlayer 30) = 1 ∧
    ((run_pipeline pipeEnvRaise).2).count Event.killPlayer = 1 := by
  have h := sink_close_exactly_once pipeEnvRaise rfl (by decide)
  exact ⟨h.1, h.2.1, h.2.2.1 rfl⟩

/-- **C5**: the playback sink is opened lazily on the first streamed
chunk, never at turn start: a pipeline run that delivers zero chunks
spawns no player subprocess (and prints no "no player" warning); when
chunks do arrive, the subprocess is spawned exactly once (player binary
available), or the warning is printed exactly once (no player binary),
at the first chunk. -/
theorem lazy_sink_open (env : PipelineEnv) :
    (env.chunks = [] →
      Event.spawnPlayer ∉ (run_pipeline env).2 ∧
      Event.warnNoPlayer ∉ (run_pipeline env).2) ∧
    (env.chunks ≠ [] →
      (env.hasPlayerCmd = true →
        ((run_pipeline env).2).count Event.spawnPlayer = 1 ∧
        Event.warnNoPlayer ∉ (run_pipeline env).2) ∧
      (env.hasPlayerCmd = false →
        Event.spawnPlayer ∉ (run_pipeline env).2 ∧
        ((run_pipeline env).2).count Event.warnNoPlayer = 1)) := by
  constructor
  · intro hcs
    have htr := run_pipeline_trace env
    rw [hcs] at htr
    have hnone : ((foldChunks env.hasPlayerCmd (true, none) ([] : List ChunkEnv)).1.2).isSome = false := rfl
    rw [hnone] at htr
    simp only [Bool.false_eq_true, if_false, foldChunks] at htr
    constructor <;> intro hmem <;> rw [htr] at hmem <;>
      simp [List.mem_append] at hmem <;>
      exact absurd hmem (not_mem_printEvsOf env.callEnd _ (by decide) (by decide))
  · intro hc
    obtain ⟨c, rest, hcs⟩ : ∃ c rest, env.chunks = c :: rest := by
      cases hcs : env.chunks with
      | nil => exact absurd hcs hc
      | cons c rest => exact ⟨c, rest, rfl⟩
    have htr := run_pipeline_trace env
    have hccount := chunkEvs_spawn_warn_count env.hasPlayerCmd c rest
    constructor
    · intro hp
      have hisSome :
          ((foldChunks env.hasPlayerCmd (true, none) env.chunks).1.2).isSome = true := by
        rw [hcs, hp, foldChunks_first_state]
        rfl
      rw [if_pos hisSome] at htr
      rw [hp] at hccount
      simp only [if_pos rfl] at hccount
      constructor
      · rw [htr, hcs, hp]
        simp [List.count_append, List.count_cons, hccount.1,
          closePlayer_count_zero env.closeRaises env.waitTimesOut Event.spawnPlayer
            (by decide) (by decide) (by decide),
          count_printEvsOf env.callEnd Event.spawnPlayer (by decide) (by decide)]
      · apply List.count_eq_zero.mp
        rw [htr, hcs, hp]
        simp [List.count_append, List.count_cons, hccount.2,
          closePlayer_count_zero env.closeRaises env.waitTimesOut Event.warnNoPlayer
            (by decide) (by decide) (by decide),
          count_printEvsOf env.callEnd Event.warnNoPlayer (by decide) (by decide)]
    · intro hp
      have hisNone :
          ((foldChunks env.hasPlayerCmd (true, none) env.chunks).1.2).isSome = false := by
        rw [hcs, hp, foldChunks_first_state]
        rfl
      rw [hisNone] at htr
      simp only [Bool.false_eq_true, if_false] at htr
      rw [hp] at hccount
      simp only [Bool.false_eq_true, if_false] at hccount
      constructor
      · apply List.count_eq_zero.mp
        rw [htr, hcs, hp]
        simp [List.count_append, List.count_cons, hccount.1,
          count_printEvsOf env.callEnd Event.spawnPlayer (by decide) (by decide)]
      · rw [htr, hcs, hp]
        simp [List.count_append, List.count_cons, hccount.2,
          count_printEvsOf env.callEnd Event.warnNoPlayer (by decide) (by decide)]

/-- A pipeline environment delivering zero chunks. -/
def pipeEnvZero : PipelineEnv :=
  { hasPlayerCmd := true, chunks := [], callEnd := CallEnd.returns [] [],
    closeRaises := false, waitTimesOut := false }

/-- A pipeline environment delivering two chunks with a player available. -/
def pipeEnvTwo : PipelineEnv :=
  { hasPlayerCmd := true, chunks := [⟨false, false⟩, ⟨false, false⟩],
    callEnd := CallEnd.returns [] [], closeRaises := false,
    waitTimesOut := false }

theorem lazy_sink_open_witness :
    (Event.spawnPlayer ∉ (run_pipeline pipeEnvZero).2 ∧
      Event.warnNoPlayer ∉ (run_pipeline pipeEnvZero).2) ∧
    ((run_pipeline pipeEnvTwo).2).count Event.spawnPlayer = 1 :=
  ⟨(lazy_sink_open pipeEnvZero).1 rfl,
   (((lazy_sink_open pipeEnvTwo).2 (by decide)).1 rfl).1⟩

/-- **C6**: a chunk arriving when the player's stdin is already closed, or
whose write hits a broken pipe, is silently discarded: the write section
of the `_on_chunk` callback returns normally (no exception propagates,
`Except.ok`) and no byte is forwarded, for any player handle and any
callback state. -/
theorem broken_pipe_swallowed (c : ChunkEnv)
    (h : c.stdinClosed = true ∨ c.brokenPipe = true) :
    (∀ player : Option Unit, onChunkWrite player c = Except.ok []) ∧
    (∀ (hp : Bool) (st : Bool × Option Unit),
      Event.writeChunk ∉ (onChunk hp st c).2) := by
  have hw : ∀ player : Option Unit, onChunkWrite player c = Except.ok [] := by
    intro player
    rcases h with h | h
    · simp [onChunkWrite, h]
    · cases player <;> cases hc : c.stdinClosed <;>
        simp [onChunkWrite, stdinWriteCall, h, hc]
  refine ⟨hw, ?_⟩
  intro hp st hmem
  rcases st with ⟨fc, p⟩
  cases fc <;> cases hp <;>
    simp [onChunk, start_player, hw] at hmem

theorem broken_pipe_swallowed_witness :
    onChunkWrite (some ()) ⟨false, true⟩ = Except.ok [] ∧
    Event.writeChunk ∉ (onChunk true (false, some ()) ⟨false, true⟩).2 :=
  ⟨(broken_pipe_swallowed ⟨false, true⟩ (Or.inr rfl)).1 (some ()),
   (broken_pipe_swallowed ⟨false, true⟩ (Or.inr rfl)).2 true (false, some ())⟩

/-- **C7**: a wake event with a turn already in flight resumes the
detector immediately and launches nothing else; that event adds no later
resume, because a turn body launched elsewhere (`_run_voice`) never emits
a resume. A wake event while idle runs the voice turn and resumes the
detector exactly once, after the turn's trace. -/
theorem wake_event_handling (p : Bool) (env : VoiceEnv) :
    (p = true → on_wake_detected p true env = [Event.resumeDetector]) ∧
    (∀ b : Bool, Event.resumeDetector ∉ run_voice env b) ∧
    (p = false →
      on_wake_detected p true env = run_voice env false ++ [Event.resumeDetector] ∧
      (on_wake_detected p true env).count Event.resumeDetector = 1) := by
  have hnr : ∀ b : Bool, Event.resumeDetector ∉ run_voice env b := by
    intro b hmem
    simp only [run_voice, List.cons_append, List.mem_cons, List.mem_append] at hmem
    rcases hmem with h | h | h
    · exact Event.noConfusion h
    · exact voiceBody_no_resume env h
    · simp at h
  refine ⟨?_, hnr, ?_⟩
  · intro hp
    simp [on_wake_detected, hp]
  · intro hp
    constructor
    · simp [on_wake_detected, hp]
    · simp only [on_wake_detected, hp, Bool.false_eq_true, if_false, if_true]
      rw [List.count_append,
        List.count_eq_zero.mpr (hnr false)]
      rfl

/-- Environment for the wake-handling witness: a long capture through a
successful pipeline run. -/
def envWake : VoiceEnv :=
  { mic := MicOutcome.captured 4000,
    pipe := { hasPlayerCmd := true, chunks := [⟨false, false⟩],
              callEnd := CallEnd.returns [] [], closeRaises := false,
              waitTimesOut := false } }

theorem wake_event_handling_witness :
    on_wake_detected true true envWake = [Event.resumeDetector] ∧
    Event.resumeDetector ∉ run_voice envWake false ∧
    (on_wake_detected false true envWake).count Event.resumeDetector = 1 :=
  ⟨(wake_event_handling true envWake).1 rfl,
   (wake_event_handling true envWake).2.1 false,
   ((wake_event_handling false envWake).2.2 rfl).2⟩

/-- **C4 counterexample**: the busy check and the flag set are separate
steps in different threads, so under the interleaving in which both
trigger threads check before either spawned body runs, two turn bodies
execute at the same instant — refuting "at most one turn body executes at
any instant, for all interleavings". -/
theorem tryEnter_not_atomic_ce :
    bodiesRunning (runSched raceInit raceSchedule) = 2 ∧
    ¬ bodiesRunning (runSched raceInit raceSchedule) ≤ 1 := by decide

/-- **C4 (amended)**: observing the busy flag and setting it are not one
indivisible step: the check runs in the trigger's thread and the set runs
later inside the spawned turn thread. A trigger that observes the flag
`True` is rejected without spawning a turn (and leaves the flag set), but
two triggers whose checks both precede either body's `setBusy` each spawn
a body, and an interleaving exists in which two turn bodies execute at
the same instant. -/
theorem busy_check_rejects_but_not_atomic (s : Sys) (i : Nat) (rest : TThread)
    (hth : s.threads.get? i = some (TInstr.checkAndSpawn :: rest))
    (hb : s.busy = true) :
    (step s i).threads.length = s.threads.length ∧
    (step s i).busy = true ∧
    2 ≤ bodiesRunning (runSched raceInit raceSchedule) := by
  refine ⟨?_, ?_, by decide⟩ <;>
  · simp only [step]
    rw [hth]
    simp [stepThread, hb, List.length_set]

/-- A system with one trigger thread while a turn is already marked busy. -/
def busyTriggerSys : Sys := { busy := true, threads := [[TInstr.checkAndSpawn]] }

theorem busy_check_rejects_but_not_atomic_witness :
    (step busyTriggerSys 0).threads.length = busyTriggerSys.threads.length ∧
    (step busyTriggerSys 0).busy = true ∧
    2 ≤ bodiesRunning (runSched raceInit raceSchedule) :=
  busy_check_rejects_but_not_atomic busyTriggerSys 0 [] rfl rfl

/-- **C8**: a reset line (any spacing/capitalisation lowering to `r` or
`reset`) is classified before the busy check, so it is accepted even while
`self._processing` is `True`; afterwards the session identifier is the
12-character prefix of the fresh `uuid.uuid4().hex` value — 12 lowercase
hex characters, different from the previous identifier (the uuid oracle
being fresh) — and the remote conversation reset is invoked. -/
theorem reset_changes_identity (st : LoopState) (line u : List Char)
    (hline : pyLower (pyStrip line) ∈ resetTokens)
    (hu12 : 12 ≤ u.length)
    (huhex : ∀ ch ∈ u, isLowerHex ch = true)
    (hfresh : u.take 12 ≠ st.sessionId) :
    (loopIter st line u).1 = LoopAction.reset ∧
    (loopIter st line u).2.1.sessionId = u.take 12 ∧
    ((loopIter st line u).2.1.sessionId).length = 12 ∧
    (∀ ch ∈ (loopIter st line u).2.1.sessionId, isLowerHex ch = true) ∧
    (loopIter st line u).2.1.sessionId ≠ st.sessionId ∧
    Event.resetConversation ∈ (loopIter st line u).2.2 := by
  have hline2 : pyLower (pyStrip line) = "r".toList ∨
      pyLower (pyStrip line) = "reset".toList := by
    simpa [resetTokens] using hline
  have hnq : pyLower (pyStrip line) ∉ quitTokens := by
    intro hq
    simp only [quitTokens, List.mem_cons, List.not_mem_nil, or_false] at hq
    rcases hline2 with h | h <;> rw [h] at hq <;>
      rcases hq with hq | hq | hq <;> exact absurd hq (by decide)
  have hit : loopIter st line u =
      (LoopAction.reset, { st with sessionId := u.take 12 },
        [Event.resetConversation, Event.printResetConfirmation,
          Event.promptShown]) := by
    simp only [loopIter]
    rw [if_neg hnq, if_pos hline]
  rw [hit]
  refine ⟨rfl, rfl, ?_, ?_, hfresh, by simp⟩
  · simp only [List.length_take]
    omega
  · intro ch hch
    exact huhex ch (List.take_subset _ _ hch)

def resetStWitness : LoopState :=
  { processing := true, sessionId := "aaaaaaaaaaaa".toList, textMode := false }

def uuidWitness : List Char := "0123456789abcdef0123456789abcdef".toList

theorem reset_changes_identity_witness :
    (loopIter resetStWitness "Reset".toList uuidWitness).1 = LoopAction.reset ∧
    (loopIter resetStWitness "Reset".toList uuidWitness).2.1.sessionId ≠
      resetStWitness.sessionId ∧
    ((loopIter resetStWitness "Reset".toList uuidWitness).2.1.sessionId).length
      = 12 ∧
    Event.resetConversation ∈
      (loopIter resetStWitness "Reset".toList uuidWitness).2.2 := by
  have h := reset_changes_identity resetStWitness "Reset".toList uuidWitness
    (by decide) (by decide) (by decide) (by decide)
  exact ⟨h.1, h.2.2.2.2.1, h.2.2.1, h.2.2.2.2.2⟩

/-- **C10**: command classification happens on the lowercased stripped
line, so any capitalisation of `q`/`quit`/`exit` quits, any capitalisation
of `r`/`reset` resets, and an inline text command may start with `T ` as
well as `t ` (the payload keeps its own case). -/
theorem commands_case_insensitive :
    (∀ (st : LoopState) (line u : List Char),
      pyLower (pyStrip line) ∈ quitTokens →
        (loopIter st line u).1 = LoopAction.quit) ∧
    (∀ (st : LoopState) (line u : List Char),
      pyLower (pyStrip line) ∈ resetTokens →
        (loopIter st line u).1 = LoopAction.reset) ∧
    (∀ (st : LoopState) (u : List Char), st.processing = false →
      (loopIter st ("T hello".toList) u).1 =
        LoopAction.dispatchTextThread ("hello".toList) ∧
      (loopIter st ("t hello".toList) u).1 =
        LoopAction.dispatchTextThread ("hello".toList)) := by
  refine ⟨?_, ?_, ?_⟩
  · intro st line u h
    simp only [loopIter]
    rw [if_pos h]
  · intro st line u h
    have h2 : pyLower (pyStrip line) = "r".toList ∨
        pyLower (pyStrip line) = "reset".toList := by
      simpa [resetTokens] using h
    have hnq : pyLower (pyStrip line) ∉ quitTokens := by
      intro hq
      simp only [quitTokens, List.mem_cons, List.not_mem_nil, or_false] at hq
      rcases h2 with h2 | h2 <;> rw [h2] at hq <;>
        rcases hq with hq | hq | hq <;> exact absurd hq (by decide)
    simp only [loopIter]
    rw [if_neg hnq, if_pos h]
  · intro st u hproc
    constructor <;>
    · simp only [loopIter]
      rw [if_neg (by decide), if_neg (by decide), if_neg (by simp [hproc]),
        if_pos (by decide)]
      rfl

theorem commands_case_insensitive_witness :
    (loopIter ⟨false, [], false⟩ "QUIT".toList []).1 = LoopAction.quit ∧
    (loopIter ⟨false, [], false⟩ "R".toList []).1 = LoopAction.reset ∧
    (loopIter ⟨false, [], false⟩ "T hello".toList []).1 =
      LoopAction.dispatchTextThread ("hello".toList) :=
  ⟨commands_case_insensitive.1 ⟨false, [], false⟩ "QUIT".toList [] (by decide),
   commands_case_insensitive.2.1 ⟨false, [], false⟩ "R".toList [] (by decide),
   (commands_case_insensitive.2.2 ⟨false, [], false⟩ [] rfl).1⟩

end NiaVoiceMac
